import Mathlib

/-!
Verification development for src/generate.py: a script that fetches league
fixture data, reshapes it, and substitutes a delimited region of index.html.

The Python code is shallowly embedded: Python values are modelled by the
inductive type PyVal (dicts as ordered association lists, matching dict
insertion-order semantics), fallible operations (KeyError, AttributeError,
TypeError, IndexError) return Option, and machine-level concerns do not
arise (Python integers are unbounded, matching Int). Recursive procedures
that walk character lists take an explicit fuel argument (always called
with fuel at least the input length, so exhaustion is unreachable); this
keeps every definition structurally recursive and kernel-evaluable.
-/

/-! ## Generic character-list helpers -/

/-- Boolean test that pat occurs at the head of s. -/
def startsWithL (pat s : List Char) : Bool :=
  match pat, s with
  | [], _ => true
  | _ :: _, [] => false
  | p :: ps, c :: cs => p == c && startsWithL ps cs

/-- Boolean test that pat occurs somewhere in s. -/
def containsSub (pat : List Char) : List Char → Bool
  | [] => startsWithL pat []
  | c :: cs => startsWithL pat (c :: cs) || containsSub pat cs

/-- Index of the first occurrence of pat in s, if any. -/
def findSub (pat : List Char) : List Char → Option Nat
  | [] => if startsWithL pat [] then some 0 else none
  | c :: cs =>
    if startsWithL pat (c :: cs) then some 0
    else (findSub pat cs).map (· + 1)

/-- ASCII whitespace recognized by the Python str.strip method. -/
def pySpace (c : Char) : Bool :=
  c == ' ' || c == '\t' || c == '\n' || c == '\r' || c == Char.ofNat 11 || c == Char.ofNat 12

/-- Embedding of the Python expression s.strip(): drop whitespace at both ends. -/
def stripL (s : List Char) : List Char :=
  ((s.dropWhile pySpace).reverse.dropWhile pySpace).reverse

/-- Decimal digit as a character. -/
def digitChar (n : Nat) : Char := Char.ofNat (48 + n)

/-- Fuelled decimal rendering of a natural number (fuel n + 1 always suffices). -/
def natStrAux : Nat → Nat → List Char
  | 0, _ => []
  | fuel + 1, n => if n < 10 then [digitChar n] else natStrAux fuel (n / 10) ++ [digitChar (n % 10)]

/-- Decimal rendering of a natural number, as produced by the Python str builtin. -/
def natStr (n : Nat) : List Char := natStrAux (n + 1) n

/-- Decimal rendering of an integer, as produced by the Python str builtin. -/
def intStr : Int → List Char
  | .ofNat n => natStr n
  | .negSucc m => '-' :: natStr (m + 1)

/-! ## Embedding of Python values -/

/-- Python values as they occur in this program: None, bool, int, str, list,
and dict (an ordered association list, mirroring insertion-ordered dicts).
Floats never occur in the data this script manipulates and are not modelled. -/
inductive PyVal where
  | pnone : PyVal
  | pbool (b : Bool) : PyVal
  | pint (n : Int) : PyVal
  | pstr (s : List Char) : PyVal
  | plist (xs : List PyVal) : PyVal
  | pdict (xs : List (PyVal × PyVal)) : PyVal

/-- Shorthand for a Python string value. -/
def strv (s : String) : PyVal := .pstr s.data

/-- Python truthiness for the values modelled here. -/
def truthy : PyVal → Bool
  | .pnone => false
  | .pbool b => b
  | .pint n => n != 0
  | .pstr s => !s.isEmpty
  | .plist xs => !xs.isEmpty
  | .pdict xs => !xs.isEmpty

/-- Embedding of the Python expression a or b (value-returning, by truthiness).
Both operands are already evaluated at every call site modelled here, so the
short-circuit order does not affect failure behaviour. -/
def pyOr (a b : PyVal) : PyVal := if truthy a then a else b

/-- Equality of dict keys. The keys this program uses are ints and strings
(plus the other hashable scalars for completeness); container keys are
unhashable in Python and never reach a dict operation here. The Python
quirk that booleans equal 0 and 1 never arises for the data of this script
and is not modelled. -/
def keyEq (a b : PyVal) : Bool :=
  match a, b with
  | .pnone, .pnone => true
  | .pbool x, .pbool y => x == y
  | .pint x, .pint y => x == y
  | .pstr x, .pstr y => x == y
  | _, _ => false

/-- Lookup in an association-list dict: value at the first matching key. -/
def dget (d : List (PyVal × PyVal)) (k : PyVal) : Option PyVal :=
  (d.find? (fun p => keyEq p.1 k)).map Prod.snd

/-- Assignment d[k] = v on an association-list dict: overwrite in place when
the key exists (keeping its position, as Python dicts do), else append. -/
def dset (d : List (PyVal × PyVal)) (k : PyVal) (v : PyVal) : List (PyVal × PyVal) :=
  if d.any (fun p => keyEq p.1 k) then
    d.map (fun p => if keyEq p.1 k then (p.1, v) else p)
  else d ++ [(k, v)]

/-- View a value as a list; anything else fails (Python TypeError on iteration). -/
def asList : PyVal → Option (List PyVal)
  | .plist xs => some xs
  | _ => none

/-- View a value as a dict; anything else fails. -/
def asDictL : PyVal → Option (List (PyVal × PyVal))
  | .pdict xs => some xs
  | _ => none

/-- View a value as a string; anything else fails (Python AttributeError on
calling a str method). -/
def asStr : PyVal → Option (List Char)
  | .pstr s => some s
  | _ => none

/-- Embedding of v.get(k, d): defaulted dict lookup; fails (AttributeError)
when v is not a dict. -/
def pyGetD (v k d : PyVal) : Option PyVal :=
  match v with
  | .pdict xs => some ((dget xs k).getD d)
  | _ => none

/-- Embedding of v.get(k): dict lookup defaulting to None. -/
def pyGet (v k : PyVal) : Option PyVal := pyGetD v k .pnone

/-- Embedding of v[k] on a dict: fails on a missing key (KeyError) or a
non-dict receiver (TypeError). -/
def pyIndex (v k : PyVal) : Option PyVal :=
  match v with
  | .pdict xs => dget xs k
  | _ => none

/-- Embedding of the Python str builtin on the scalar values it is applied to
in this program (only dict keys reach it, and container keys are unhashable,
so the container branches are unreachable and returned unchanged). -/
def pyStrV : PyVal → PyVal
  | .pnone => strv "None"
  | .pbool true => strv "True"
  | .pbool false => strv "False"
  | .pint n => .pstr (intStr n)
  | .pstr s => .pstr s
  | .plist xs => .plist xs
  | .pdict xs => .pdict xs

/-! ## fmt_date (src/generate.py lines 31 to 35) -/

/-- Embedding of fmt_date: empty or falsy input, or a timestamp starting with
one of the null-date sentinels 0001 or 1901, gives the empty string; any other
string is truncated to its first 16 characters. A truthy non-string input
fails (AttributeError on startswith), as in the source. -/
def fmt_date (s : PyVal) : Option (List Char) :=
  if truthy s = false then some []
  else match s with
    | .pstr t =>
        if startsWithL "0001".data t || startsWithL "1901".data t then some []
        else some (t.take 16)
    | _ => none

/-! ## transform_matches (src/generate.py lines 38 to 54) -/

/-- Embedding of the per-match body of the inner loop of transform_matches. -/
def transform_match (m : PyVal) : Option PyVal := do
  let status ← pyGetD m (strv "status") (.pint 5)
  let home := pyOr (← pyGet m (strv "idHomeTeam")) (.pint (-1))
  let away := pyOr (← pyGet m (strv "idVisitorTeam")) (.pint (-1))
  let d ← fmt_date (← pyGetD m (strv "startTime") (strv ""))
  let field := pyOr (← pyGet m (strv "field")) (.pdict [])
  let f ← if truthy field then do
      pure (pyOr (← pyGet field (strv "name")) (strv ""))
    else pure (strv "")
  pure (.pdict [(strv "h", home), (strv "v", away), (strv "d", .pstr d),
                (strv "s", status), (strv "f", f)])

/-- Embedding of the per-jornada body of the outer loop of transform_matches. -/
def transform_jornada (j : PyVal) : Option PyVal := do
  let name ← pyGetD j (strv "name") (strv "")
  let gid ← pyGetD j (strv "idGroup") (.pint 0)
  let ms ← asList (← pyGetD j (strv "matches") (.plist []))
  let mres ← ms.mapM transform_match
  pure (.pdict [(strv "n", name), (strv "g", gid), (strv "m", .plist mres)])

/-- Embedding of transform_matches: convert the API jornada list to the
compact format, preserving order and count. -/
def transform_matches (jd : PyVal) : Option PyVal := do
  let js ← asList jd
  let res ← js.mapM transform_jornada
  pure (.plist res)

/-! ## build_mt (src/generate.py lines 57 to 62) -/

/-- Embedding of build_mt: the flat teamId to name mapping. Indexing with
the id and name keys is fallible, as in the source. -/
def build_mt (td : PyVal) : Option PyVal := do
  let ts ← asList (← pyGetD td (strv "teams") (.plist []))
  let mt ← ts.foldlM (fun mt team => do
      let tid ← pyIndex team (strv "id")
      let nm ← pyIndex team (strv "name")
      pure (dset mt tid nm)) ([] : List (PyVal × PyVal))
  pure (.pdict mt)

/-! ## build_pt (src/generate.py lines 65 to 102) -/

/-- Embedding of the group-letter derivation (lines 83 to 87): last character
of the trimmed group name upper-cased when the trimmed name is nonempty, else
A; anything outside A, B, C, D collapses to A. The negative index into the
trimmed name is modelled by getLast?, so an out-of-range access would surface
as a failure of this Option. -/
def gletterOf (gname : List Char) : Option (List Char) := do
  let t := stripL gname
  let gl ← if t.isEmpty then pure ['A']
    else do
      let c ← t.getLast?
      pure [c.toUpper]
  pure (if gl == "A".data || gl == "B".data || gl == "C".data || gl == "D".data
        then gl else ['A'])

/-- Embedding of the chained lookup for the groups structure (lines 74 to 79).
In the source the chain short-circuits; since each get fails only when the
receiver is not a dict, a condition shared by all three, evaluating all three
here yields the same Option result. -/
def groupsOf (td : PyVal) : Option PyVal := do
  pure (pyOr (← pyGet td (strv "groups"))
    (pyOr (← pyGet td (strv "roundGroups"))
      (pyOr (← pyGet td (strv "groupsRounds")) (.plist []))))

/-- Embedding of the groups loop of build_pt (lines 81 to 89), accumulating
entries keyed by team id with the derived group letter. -/
def ptFromGroups (groups : PyVal) : Option (List (PyVal × PyVal)) := do
  let gs ← asList groups
  gs.foldlM (fun pt group => do
      let gname ← pyGetD group (strv "name") (strv "")
      let gn ← asStr gname
      let gl ← gletterOf gn
      let ts ← asList (← pyGetD group (strv "teams") (.plist []))
      ts.foldlM (fun pt team => do
          let tid ← pyIndex team (strv "id")
          let nm ← pyIndex team (strv "name")
          pure (dset pt tid (.pdict [(strv "n", nm), (strv "g", .pstr gl)]))) pt)
    ([] : List (PyVal × PyVal))

/-- Embedding of the per-team group resolution in the fallback loop of
build_pt (lines 95 to 99): when the previous mapping is truthy, look the id
up directly and then by its str form; a truthy dict entry contributes its g
value (defaulting to A), anything else gives A. -/
def fallbackGroup (existing_pt tid : PyVal) : Option PyVal :=
  if truthy existing_pt then do
    let e1 ← pyGet existing_pt tid
    let entry ← if truthy e1 then pure e1 else pyGet existing_pt (pyStrV tid)
    if truthy entry then
      match entry with
      | .pdict d => pure ((dget d (strv "g")).getD (strv "A"))
      | _ => pure (strv "A")
    else pure (strv "A")
  else pure (strv "A")

/-- Body of one iteration of the fallback loop of build_pt (lines 93 to 100):
read the team id, resolve its group, read the name, store the entry. -/
def ptFallbackStep (existing_pt : PyVal) (pt : List (PyVal × PyVal)) (team : PyVal) :
    Option (List (PyVal × PyVal)) := do
  let tid ← pyIndex team (strv "id")
  let g ← fallbackGroup existing_pt tid
  let nm ← pyIndex team (strv "name")
  pure (dset pt tid (.pdict [(strv "n", nm), (strv "g", g)]))

/-- Embedding of the fallback loop of build_pt (lines 91 to 100) over the flat
teams list. -/
def ptFallback (td existing_pt : PyVal) : Option (List (PyVal × PyVal)) := do
  let ts ← asList (← pyGetD td (strv "teams") (.plist []))
  ts.foldlM (ptFallbackStep existing_pt) ([] : List (PyVal × PyVal))

/-- Embedding of build_pt: groups path when a truthy groups structure exists,
then the fallback path whenever the mapping is still empty. -/
def build_pt (td existing_pt : PyVal) : Option PyVal := do
  let groups ← groupsOf td
  let pt ← if truthy groups then ptFromGroups groups else pure ([] : List (PyVal × PyVal))
  let pt2 ← if pt.isEmpty then ptFallback td existing_pt else pure pt
  pure (.pdict pt2)

example : fmt_date (strv "2024-03-10T10:00:00+01:00") = some "2024-03-10T10:00".data := rfl
example : fmt_date (strv "0001-01-01T00:00") = some [] := rfl
example : fmt_date .pnone = some [] := rfl
example : gletterOf "Grupo A".data = some ['A'] := rfl
example : gletterOf "grupo c".data = some ['C'] := rfl
example : gletterOf "Z".data = some ['A'] := rfl
example : gletterOf "   ".data = some ['A'] := rfl
example :
    build_pt (.pdict [(strv "teams", .plist [.pdict [(strv "id", .pint 5), (strv "name", strv "X")]])])
      (.pdict [(.pint 5, .pdict [(strv "n", strv "X"), (strv "g", strv "B")])])
    = some (.pdict [(.pint 5, .pdict [(strv "n", strv "X"), (strv "g", strv "B")])]) := rfl
example :
    build_mt (.pdict [(strv "teams", .plist [.pdict [(strv "id", .pint 1), (strv "name", strv "Team A")]])])
    = some (.pdict [(.pint 1, strv "Team A")]) := rfl
example :
    transform_matches (.plist [.pdict []]) =
      some (.plist [.pdict [(strv "n", strv ""), (strv "g", .pint 0), (strv "m", .plist [])]]) := rfl

/-! ## JSON serialization: js_const (src/generate.py lines 116 to 117),
modelling json.dumps with ensure_ascii False and separators comma and colon -/

/-- Lower-case hexadecimal digit. -/
def hexDigit (n : Nat) : Char := if n < 10 then digitChar n else Char.ofNat (87 + n)

/-- JSON escaping of one character as json.dumps performs it with ensure_ascii
False: quote, backslash and the named control escapes, a u-escape for the
remaining control characters, everything else (non-ASCII included) verbatim. -/
def escChar (c : Char) : List Char :=
  if c == '"' then ['\\', '"']
  else if c == '\\' then ['\\', '\\']
  else if c == '\n' then ['\\', 'n']
  else if c == '\t' then ['\\', 't']
  else if c == '\r' then ['\\', 'r']
  else if c == Char.ofNat 8 then ['\\', 'b']
  else if c == Char.ofNat 12 then ['\\', 'f']
  else if c.toNat < 32 then
    ['\\', 'u', '0', '0', hexDigit (c.toNat / 16), hexDigit (c.toNat % 16)]
  else [c]

/-- JSON rendering of a string: quoted, characters escaped. -/
def jstr (s : List Char) : List Char :=
  '"' :: s.foldr (fun c acc => escChar c ++ acc) ['"']

/-- Join character lists with a separator. -/
def joinSep (sep : List Char) : List (List Char) → List Char
  | [] => []
  | [x] => x
  | x :: y :: rest => x ++ sep ++ joinSep sep (y :: rest)

/-- JSON rendering of a dict key as json.dumps coerces it: strings as
themselves, ints via str, booleans and None via their JSON spellings; a
container key is a TypeError. -/
def jsonKeyStr : PyVal → Option (List Char)
  | .pstr s => some (jstr s)
  | .pint n => some (jstr (intStr n))
  | .pbool true => some (jstr "true".data)
  | .pbool false => some (jstr "false".data)
  | .pnone => some (jstr "null".data)
  | _ => none

/-- Fuelled model of json.dumps with ensure_ascii False and compact
separators. The fuel bounds nesting depth only; any fuel above the depth of
the value gives the same result. -/
def dumpsF : Nat → PyVal → Option (List Char)
  | 0, _ => none
  | fuel + 1, v =>
    match v with
    | .pnone => some "null".data
    | .pbool true => some "true".data
    | .pbool false => some "false".data
    | .pint n => some (intStr n)
    | .pstr s => some (jstr s)
    | .plist xs => do
        let parts ← xs.mapM (dumpsF fuel)
        pure ('[' :: joinSep [','] parts ++ [']'])
    | .pdict xs => do
        let parts ← xs.mapM (fun kv => do
            let ks ← jsonKeyStr kv.1
            let vs ← dumpsF fuel kv.2
            pure (ks ++ ':' :: vs))
        pure ('{' :: joinSep [','] parts ++ ['}'])

/-- Embedding of js_const: the named-constant declaration text. -/
def js_const (fuel : Nat) (name : List Char) (value : PyVal) : Option (List Char) :=
  (dumpsF fuel value).map (fun j => "const ".data ++ name ++ '=' :: j ++ [';'])

/-! ## JSON parsing: a model of json.loads for the documents this script
feeds it (no floats occur in them; a numeric literal is parsed as an
integer). Used by extract_existing_pt and by the round-trip statements. -/

/-- JSON insignificant whitespace. -/
def jsonWs (c : Char) : Bool := c == ' ' || c == '\t' || c == '\n' || c == '\r'

/-- Drop leading JSON whitespace. -/
def skipWs (s : List Char) : List Char := s.dropWhile jsonWs

/-- Value of one hexadecimal digit. -/
def hexVal (c : Char) : Option Nat :=
  if '0' ≤ c && c ≤ '9' then some (c.toNat - 48)
  else if 'a' ≤ c && c ≤ 'f' then some (c.toNat - 87)
  else if 'A' ≤ c && c ≤ 'F' then some (c.toNat - 55)
  else none

/-- Parse the body of a JSON string after the opening quote, returning the
decoded characters and the remainder after the closing quote. -/
def parseStrAux : List Char → Option (List Char × List Char)
  | [] => none
  | '"' :: rest => some ([], rest)
  | '\\' :: 'u' :: a :: b :: c :: d :: rest => do
      let ha ← hexVal a
      let hb ← hexVal b
      let hc ← hexVal c
      let hd ← hexVal d
      let (s, r) ← parseStrAux rest
      pure (Char.ofNat (((ha * 16 + hb) * 16 + hc) * 16 + hd) :: s, r)
  | '\\' :: e :: rest => do
      let c ← match e with
        | '"' => some '"'
        | '\\' => some '\\'
        | '/' => some '/'
        | 'b' => some (Char.ofNat 8)
        | 'f' => some (Char.ofNat 12)
        | 'n' => some '\n'
        | 'r' => some '\r'
        | 't' => some '\t'
        | _ => none
      let (s, r) ← parseStrAux rest
      pure (c :: s, r)
  | c :: rest => do
      let (s, r) ← parseStrAux rest
      pure (c :: s, r)

/-- Value of a digit string. -/
def digitsToNat (ds : List Char) : Nat :=
  ds.foldl (fun a c => a * 10 + (c.toNat - 48)) 0

/-- Parse a JSON integer literal with maximal munch. -/
def parseIntTok (s : List Char) : Option (PyVal × List Char) :=
  match s with
  | '-' :: rest =>
    let p := rest.span Char.isDigit
    if p.1.isEmpty then none else some (.pint (-(digitsToNat p.1 : Int)), p.2)
  | _ =>
    let p := s.span Char.isDigit
    if p.1.isEmpty then none else some (.pint (digitsToNat p.1), p.2)

mutual

/-- Fuelled recursive-descent parse of one JSON value. -/
def parseVal : Nat → List Char → Option (PyVal × List Char)
  | 0, _ => none
  | fuel + 1, s =>
    match skipWs s with
    | 'n' :: 'u' :: 'l' :: 'l' :: r => some (.pnone, r)
    | 't' :: 'r' :: 'u' :: 'e' :: r => some (.pbool true, r)
    | 'f' :: 'a' :: 'l' :: 's' :: 'e' :: r => some (.pbool false, r)
    | '"' :: r => (parseStrAux r).map (fun p => (.pstr p.1, p.2))
    | '[' :: r =>
      (match skipWs r with
       | ']' :: rest => some (.plist [], rest)
       | r2 => do
          let (vs, rest) ← parseItems fuel r2
          pure (.plist vs, rest))
    | '{' :: r =>
      (match skipWs r with
       | '}' :: rest => some (.pdict [], rest)
       | r2 => do
          let (prs, rest) ← parsePairs fuel r2
          pure (.pdict (prs.foldl (fun d kv => dset d kv.1 kv.2) []), rest))
    | r => parseIntTok r

/-- Fuelled parse of the comma-separated items of a nonempty JSON array,
consuming the closing bracket. -/
def parseItems : Nat → List Char → Option (List PyVal × List Char)
  | 0, _ => none
  | fuel + 1, s => do
    let (v, r) ← parseVal fuel s
    match skipWs r with
    | ',' :: r2 => do
        let (vs, rest) ← parseItems fuel r2
        pure (v :: vs, rest)
    | ']' :: rest => pure ([v], rest)
    | _ => none

/-- Fuelled parse of the members of a nonempty JSON object, consuming the
closing brace; the pairs are returned in textual order (the resulting dict is
built by successive assignment, so a repeated key keeps the last value, as
json.loads does). -/
def parsePairs : Nat → List Char → Option (List (PyVal × PyVal) × List Char)
  | 0, _ => none
  | fuel + 1, s =>
    match skipWs s with
    | '"' :: r => do
      let (k, r2) ← parseStrAux r
      (match skipWs r2 with
       | ':' :: r3 => do
         let (v, r4) ← parseVal fuel r3
         (match skipWs r4 with
          | ',' :: r5 => do
              let (prs, rest) ← parsePairs fuel r5
              pure ((.pstr k, v) :: prs, rest)
          | '}' :: rest => pure ([(.pstr k, v)], rest)
          | _ => none)
       | _ => none)
    | _ => none

end

/-- Model of json.loads: parse one value and require only whitespace after
it. The fuel is a nesting bound; twice the length plus two always suffices. -/
def loads (s : List Char) : Option PyVal :=
  match parseVal (2 * s.length + 2) s with
  | some (v, r) => if skipWs r = [] then some v else none
  | none => none

/-! ## extract_existing_pt (src/generate.py lines 105 to 113) -/

/-- Text of the assignment introducer that anchors the PT extraction regex. -/
def ptPat : List Char := "const PT=\x7b".data

/-- Embedding of extract_existing_pt: locate the first occurrence of the PT
assignment introducer, lazily extend the brace group to the first following
brace-semicolon, and parse the captured JSON object; any failure gives the
empty dict, as the except clause in the source does. -/
def extract_existing_pt (html : List Char) : PyVal :=
  match findSub ptPat html with
  | none => .pdict []
  | some i =>
    let tail := html.drop (i + ptPat.length)
    match findSub "\x7d;".data tail with
    | none => .pdict []
    | some k =>
      match loads ('{' :: tail.take (k + 1)) with
      | some v => v
      | none => .pdict []

/-! ## The substitution step of main (src/generate.py lines 154 to 167) -/

/-- Text of the introducer anchor of the replaceable region. -/
def miniIntro : List Char := "const MINI_MATCHES=".data

/-- Text of the section marker that ends the replaceable region (the
lookahead of the substitution regex). -/
def stateMarker : List Char := "// ── STATE".data

/-- Fuelled model of the global lazy regex substitution re.sub on the pattern
that matches the introducer, a minimal run of arbitrary characters, and a
lookahead for the section marker. A match at a position requires the
introducer there and the marker at or beyond its end; the lazy quantifier
stops at the first marker occurrence, and scanning resumes at the lookahead
position. The replacement text is inserted verbatim (the data this script
substitutes contains no backslash, so template escape processing is
irrelevant). Fuel at least the length of the text always suffices. -/
def reSubF (repl : List Char) : Nat → List Char → List Char
  | _, [] => []
  | 0, s => s
  | fuel + 1, c :: rest =>
    if startsWithL miniIntro (c :: rest) then
      match findSub stateMarker (List.drop miniIntro.length (c :: rest)) with
      | some k => repl ++ reSubF repl fuel (List.drop (miniIntro.length + k) (c :: rest))
      | none => c :: reSubF repl fuel rest
    else c :: reSubF repl fuel rest

/-- Decidable presence of an anchored match: some position carries the
introducer with the section marker at or beyond its end. -/
def hasAnchor : List Char → Bool
  | [] => false
  | c :: rest =>
    (startsWithL miniIntro (c :: rest)
      && containsSub stateMarker (List.drop miniIntro.length (c :: rest)))
    || hasAnchor rest

/-- Embedding of the substitution and write step of main (lines 154 to 167):
substitute, and when the result is textually identical to the input report
failure with exit code 1 and no write, else exit code 0 and write the new
text. The first component is the exit code, the second the written text. -/
def inject (new_data html : List Char) : Nat × Option (List Char) :=
  let new_html := reSubF (new_data ++ ['\n']) html.length html
  if new_html = html then (1, none) else (0, some new_html)

/-! ## main (src/generate.py lines 120 to 173) -/

/-- Outcome of a fetch: the source maps urllib URLError and every other
exception to distinct handlers, both of which exit with status 1. -/
inductive FetchErr where
  | url (msg : List Char) : FetchErr
  | other (msg : List Char) : FetchErr

/-- Observable outcome of one run of main: the exit code, whether the target
document was read, and the text written to it (none when no write happened). -/
structure MainResult where
  exitCode : Nat
  readDoc : Bool
  written : Option (List Char)
deriving DecidableEq

/-- Text of the static-teams comment line assembled into the replacement
block (line 148). -/
def staticTeamsComment : List Char :=
  "// ── STATIC TEAMS ──────────────────────────────────────────".data

/-- Join with newlines, as the str.join call on line 144 does. -/
def joinNL (xs : List (List Char)) : List Char := joinSep ['\n'] xs

/-- Embedding of main as a function of the four fetch outcomes (in the order
the source performs them) and the text of index.html. A fetch error exits
with status 1 before the document is read. After a successful fetch stage
the document is read, the previous PT mapping extracted, the four data
products computed and serialized (an uncaught exception there exits with
status 1, after the read and before any write), and the substitution step
decides the exit code and the written text. The fuel bounds the nesting
depth of the serialized values only. -/
def mainModel (fuel : Nat)
    (mini_fetch pre_fetch minit_fetch pret_fetch : Except FetchErr PyVal)
    (html : List Char) : MainResult :=
  match mini_fetch with
  | .error _ => ⟨1, false, none⟩
  | .ok mini_raw =>
  match pre_fetch with
  | .error _ => ⟨1, false, none⟩
  | .ok pre_raw =>
  match minit_fetch with
  | .error _ => ⟨1, false, none⟩
  | .ok mini_t =>
  match pret_fetch with
  | .error _ => ⟨1, false, none⟩
  | .ok pre_t =>
    let existing_pt := extract_existing_pt html
    let computed : Option (List Char) := do
      let mini_matches ← transform_matches mini_raw
      let pre_matches ← transform_matches pre_raw
      let mt ← build_mt mini_t
      let pt ← build_pt pre_t existing_pt
      let c1 ← js_const fuel "MINI_MATCHES".data mini_matches
      let c2 ← js_const fuel "PRE_MATCHES".data pre_matches
      let c3 ← js_const fuel "MT".data mt
      let c4 ← js_const fuel "PT".data pt
      pure (joinNL [c1, c2, [], staticTeamsComment, c3, c4, []])
    match computed with
    | none => ⟨1, true, none⟩
    | some new_data =>
      match inject new_data html with
      | (code, w) => ⟨code, true, w⟩

example : (dumpsF 3 (.pdict [(.pint 1, strv "Team A")])) = some "\x7b\"1\":\"Team A\"\x7d".data := rfl
example : loads "\x7b\"1\":\"Team A\"\x7d".data = some (.pdict [(strv "1", strv "Team A")]) := rfl
example : loads "[\x7b\"h\":-1,\"v\":2\x7d,null,true]".data =
    some (.plist [.pdict [(strv "h", .pint (-1)), (strv "v", .pint 2)], .pnone, .pbool true]) := rfl
example : extract_existing_pt "const PT=\x7b\"5\":\x7b\"n\":\"X\",\"g\":\"B\"\x7d\x7d;".data =
    .pdict [(strv "5", .pdict [(strv "n", strv "X"), (strv "g", strv "B")])] := rfl
example : reSubF "NEW".data 20 "aaconst MINI_MATCHES=zzz// ── STATEqq".data =
    "aaNEW// ── STATEqq".data := rfl
example : inject "x".data "nothing here".data = (1, none) := rfl

/-! ## Claim theorems -/

/-- C6: the timestamp formatter maps every string input to its first 16
characters, except that an absent or empty input, or one beginning with 0001
or 1901, always maps to the empty string. -/
theorem fmt_date_truncation_spec :
    (∀ s : List Char, s ≠ [] → startsWithL "0001".data s = false →
        startsWithL "1901".data s = false → fmt_date (.pstr s) = some (s.take 16))
    ∧ (∀ s : List Char,
        s = [] ∨ startsWithL "0001".data s = true ∨ startsWithL "1901".data s = true →
        fmt_date (.pstr s) = some [])
    ∧ fmt_date .pnone = some [] := by
  refine ⟨?_, ?_, rfl⟩
  · intro s hne h1 h2
    simp [fmt_date, truthy, List.isEmpty_iff, hne, h1, h2]
  · intro s h
    rcases h with h | h | h
    · subst h; rfl
    all_goals
      have hne : s ≠ [] := by
        rintro rfl
        simp [startsWithL] at h
    all_goals simp [fmt_date, truthy, List.isEmpty_iff, hne, h]

/-- Closed instance of the C6 theorem at concrete inputs. -/
theorem fmt_date_truncation_spec_w :
    fmt_date (.pstr "2024-03-10T10:00:30".data) = some "2024-03-10T10:00".data
    ∧ fmt_date (.pstr "0001-01-01T00:00".data) = some [] :=
  ⟨fmt_date_truncation_spec.1 _ (by decide) rfl rfl,
   fmt_date_truncation_spec.2.1 _ (Or.inr (Or.inl rfl))⟩

/-- C10: a nonempty string input that avoids the null-date sentinels and is
shorter than 16 characters is returned unchanged, and the formatter never
fails on a string input. -/
theorem fmt_date_short_input_id :
    (∀ s : List Char, s ≠ [] → startsWithL "0001".data s = false →
        startsWithL "1901".data s = false → s.length < 16 → fmt_date (.pstr s) = some s)
    ∧ (∀ s : List Char, (fmt_date (.pstr s)).isSome = true) := by
  constructor
  · intro s hne h1 h2 hlen
    have ht : s.take 16 = s := List.take_of_length_le (by omega)
    simp [fmt_date, truthy, List.isEmpty_iff, hne, h1, h2, ht]
  · intro s
    by_cases hne : s = []
    · subst hne; rfl
    · by_cases h1 : startsWithL "0001".data s
      · simp [fmt_date, truthy, List.isEmpty_iff, hne, h1]
      · by_cases h2 : startsWithL "1901".data s
        · simp [fmt_date, truthy, List.isEmpty_iff, hne, h2]
        · simp [fmt_date, truthy, List.isEmpty_iff, hne,
            Bool.of_not_eq_true h1, Bool.of_not_eq_true h2]

/-- Closed instance of the C10 theorem at a concrete short input. -/
theorem fmt_date_short_input_id_w :
    fmt_date (.pstr "2024-03-10".data) = some "2024-03-10".data :=
  fmt_date_short_input_id.1 _ (by decide) rfl rfl (by decide)

/-- C3: a failure in any of the four fetches makes the run exit with status 1
before the target document is read, and nothing is written. -/
theorem fetch_failure_aborts_before_read :
    ∀ (fuel : Nat) (f1 f2 f3 f4 : Except FetchErr PyVal) (html : List Char),
      (∃ e, f1 = .error e) ∨ (∃ e, f2 = .error e) ∨ (∃ e, f3 = .error e)
        ∨ (∃ e, f4 = .error e) →
      mainModel fuel f1 f2 f3 f4 html = ⟨1, false, none⟩ := by
  intro fuel f1 f2 f3 f4 html h
  rcases h with ⟨e, he⟩ | ⟨e, he⟩ | ⟨e, he⟩ | ⟨e, he⟩ <;> subst he
  · rfl
  · cases f1 <;> rfl
  · cases f1 <;> cases f2 <;> rfl
  · cases f1 <;> cases f2 <;> cases f3 <;> rfl

/-- Closed instance of the C3 theorem: a failing first fetch on a concrete
document. -/
theorem fetch_failure_aborts_before_read_w :
    mainModel 0 (.error (.url "timeout".data)) (.ok .pnone) (.ok .pnone) (.ok .pnone)
      "<html></html>".data = ⟨1, false, none⟩ :=
  fetch_failure_aborts_before_read 0 _ _ _ _ _ (Or.inl ⟨_, rfl⟩)

/-- A pattern that occurs nowhere has no first occurrence. -/
theorem findSub_eq_none_of_contains_false (pat : List Char) :
    ∀ s : List Char, containsSub pat s = false → findSub pat s = none := by
  intro s
  induction s with
  | nil =>
    intro h
    simp only [containsSub] at h
    simp [findSub, h]
  | cons c cs ih =>
    intro h
    simp only [containsSub, Bool.or_eq_false_iff] at h
    simp [findSub, h.1, ih h.2]

/-- With no anchored match anywhere in the text, the substitution returns the
text unchanged (for any sufficient fuel). -/
theorem reSubF_eq_self_of_no_anchor (repl : List Char) :
    ∀ (fuel : Nat) (s : List Char), s.length ≤ fuel → hasAnchor s = false →
      reSubF repl fuel s = s := by
  intro fuel
  induction fuel with
  | zero =>
    intro s hlen _
    have : s = [] := List.eq_nil_of_length_eq_zero (Nat.le_zero.mp hlen)
    subst this
    rfl
  | succ n ih =>
    intro s hlen h
    cases s with
    | nil => rfl
    | cons c cs =>
      simp only [hasAnchor, Bool.or_eq_false_iff, Bool.and_eq_false_iff] at h
      obtain ⟨h1, h2⟩ := h
      simp only [reSubF]
      rcases h1 with h1 | h1
      · simp only [h1, Bool.false_eq_true, if_false]
        rw [ih cs (by simpa using Nat.le_of_succ_le_succ hlen) h2]
      · by_cases hs : startsWithL miniIntro (c :: cs)
        · rw [if_pos hs, findSub_eq_none_of_contains_false _ _ h1,
            ih cs (by simpa using Nat.le_of_succ_le_succ hlen) h2]
        · rw [if_neg hs, ih cs (by simpa using Nat.le_of_succ_le_succ hlen) h2]

/-- C2: on a document with no occurrence of the rounds introducer followed
eventually by the section marker, the substitution step exits with status 1
and writes nothing, and so does the whole run whatever the fetches returned. -/
theorem no_anchor_aborts_unmodified :
    ∀ (new_data html : List Char), hasAnchor html = false →
      inject new_data html = (1, none)
      ∧ ∀ (fuel : Nat) (f1 f2 f3 f4 : Except FetchErr PyVal),
          (mainModel fuel f1 f2 f3 f4 html).exitCode = 1
          ∧ (mainModel fuel f1 f2 f3 f4 html).written = none := by
  intro new_data html h
  have hinj : ∀ d : List Char, inject d html = (1, none) := by
    intro d
    unfold inject
    rw [reSubF_eq_self_of_no_anchor _ html.length html le_rfl h]
    simp
  refine ⟨hinj new_data, ?_⟩
  intro fuel f1 f2 f3 f4
  cases f1 with
  | error e => exact ⟨rfl, rfl⟩
  | ok v1 =>
  cases f2 with
  | error e => exact ⟨rfl, rfl⟩
  | ok v2 =>
  cases f3 with
  | error e => exact ⟨rfl, rfl⟩
  | ok v3 =>
  cases f4 with
  | error e => exact ⟨rfl, rfl⟩
  | ok v4 =>
    simp only [mainModel]
    cases hc : (do
      let mini_matches ← transform_matches v1
      let pre_matches ← transform_matches v2
      let mt ← build_mt v3
      let pt ← build_pt v4 (extract_existing_pt html)
      let c1 ← js_const fuel "MINI_MATCHES".data mini_matches
      let c2 ← js_const fuel "PRE_MATCHES".data pre_matches
      let c3 ← js_const fuel "MT".data mt
      let c4 ← js_const fuel "PT".data pt
      pure (joinNL [c1, c2, [], staticTeamsComment, c3, c4, []]) : Option (List Char)) with
    | none => exact ⟨rfl, rfl⟩
    | some nd =>
      simp [hinj nd]

/-- Closed instance of the C2 theorem on a concrete anchorless document. -/
theorem no_anchor_aborts_unmodified_w :
    inject "x".data "<html>no markers here</html>".data = (1, none) :=
  (no_anchor_aborts_unmodified "x".data "<html>no markers here</html>".data rfl).1

/-- Replacement block the run computes when every fetched collection is
empty: the four constant declarations joined as main assembles them. -/
def idemNewData : List Char :=
  joinNL ["const MINI_MATCHES=[];".data, "const PRE_MATCHES=[];".data, [],
          staticTeamsComment, "const MT=\x7b\x7d;".data, "const PT=\x7b\x7d;".data, []]

/-- A document whose replaceable region already contains exactly that block:
the run against it recomputes the same text, so the substitution leaves the
document byte-identical. -/
def idemHtml : List Char :=
  "<!-- page -->\n".data ++ idemNewData ++ ['\n']
    ++ "// ── STATE ──\nrest of document".data

set_option maxRecDepth 100000 in
/-- C1 evidence: on a document that already contains exactly the data being
injected, the anchors are present and a replacement is attempted, yet the run
exits with status 1 (the path that warns that the regex found no match),
because the equality test on line 162 cannot tell an unchanged substitution
from an absent anchor. The spec requires exit status 0 here. -/
theorem idempotent_run_misreported_as_failure :
    hasAnchor idemHtml = true
    ∧ inject idemNewData idemHtml = (1, none)
    ∧ mainModel 4 (.ok (.plist [])) (.ok (.plist [])) (.ok (.pdict [])) (.ok (.pdict []))
        idemHtml = ⟨1, true, none⟩ :=
  ⟨rfl, rfl, rfl⟩

/-- Default record produced by transform_match when every optional field is
absent. -/
def defaultMatchRec : PyVal :=
  .pdict [(strv "h", .pint (-1)), (strv "v", .pint (-1)), (strv "d", .pstr []),
          (strv "s", .pint 5), (strv "f", strv "")]

/-- A match record with none of the optional keys transforms to the default
record, whatever other keys it carries. -/
theorem transform_match_all_missing (ml : List (PyVal × PyVal))
    (h1 : dget ml (strv "status") = none) (h2 : dget ml (strv "idHomeTeam") = none)
    (h3 : dget ml (strv "idVisitorTeam") = none) (h4 : dget ml (strv "startTime") = none)
    (h5 : dget ml (strv "field") = none) :
    transform_match (.pdict ml) = some defaultMatchRec := by
  have hf : fmt_date (strv "") = some [] := rfl
  simp [transform_match, pyGetD, pyGet, h1, h2, h3, h4, h5, pyOr, truthy, hf,
    defaultMatchRec]

/-- A round record with none of the optional keys and no matches key
transforms to the empty default round. -/
theorem transform_jornada_all_missing (rl : List (PyVal × PyVal))
    (h1 : dget rl (strv "name") = none) (h2 : dget rl (strv "idGroup") = none)
    (h3 : dget rl (strv "matches") = none) :
    transform_jornada (.pdict rl) =
      some (.pdict [(strv "n", strv ""), (strv "g", .pint 0), (strv "m", .plist [])]) := by
  simp [transform_jornada, pyGetD, h1, h2, h3, asList, List.mapM.loop]

/-- C7: match records and round records with the optional fields missing, in
whatever combination (here: all match-level fields absent; a field object
present but without a name; all round-level fields absent; and the composed
case of a defaulted round holding a defaulted match), transform without
failure into the documented defaults: status 5, ids -1, empty timestamp,
empty venue name, empty round name, group id 0. -/
theorem transform_missing_fields_defaults :
    (∀ ml : List (PyVal × PyVal),
      dget ml (strv "status") = none → dget ml (strv "idHomeTeam") = none →
      dget ml (strv "idVisitorTeam") = none → dget ml (strv "startTime") = none →
      dget ml (strv "field") = none →
      transform_match (.pdict ml) = some defaultMatchRec)
    ∧ (∀ fl : List (PyVal × PyVal), dget fl (strv "name") = none →
      transform_match (.pdict [(strv "field", .pdict fl)]) = some defaultMatchRec)
    ∧ (∀ rl : List (PyVal × PyVal),
      dget rl (strv "name") = none → dget rl (strv "idGroup") = none →
      dget rl (strv "matches") = none →
      transform_jornada (.pdict rl) =
        some (.pdict [(strv "n", strv ""), (strv "g", .pint 0), (strv "m", .plist [])]))
    ∧ (∀ rl ml : List (PyVal × PyVal),
      dget rl (strv "name") = none → dget rl (strv "idGroup") = none →
      dget rl (strv "matches") = some (.plist [.pdict ml]) →
      dget ml (strv "status") = none → dget ml (strv "idHomeTeam") = none →
      dget ml (strv "idVisitorTeam") = none → dget ml (strv "startTime") = none →
      dget ml (strv "field") = none →
      transform_matches (.plist [.pdict rl]) =
        some (.plist [.pdict [(strv "n", strv ""), (strv "g", .pint 0),
                              (strv "m", .plist [defaultMatchRec])]])) := by
  refine ⟨transform_match_all_missing, ?_, transform_jornada_all_missing, ?_⟩
  · intro fl h
    have hs : dget [(strv "field", .pdict fl)] (strv "status") = none := rfl
    have hh : dget [(strv "field", .pdict fl)] (strv "idHomeTeam") = none := rfl
    have hv : dget [(strv "field", .pdict fl)] (strv "idVisitorTeam") = none := rfl
    have hd : dget [(strv "field", .pdict fl)] (strv "startTime") = none := rfl
    have hfield : dget [(strv "field", .pdict fl)] (strv "field") = some (.pdict fl) := rfl
    have hf : fmt_date (strv "") = some [] := rfl
    cases fl with
    | nil =>
      simp [transform_match, pyGetD, pyGet, hs, hh, hv, hd, hfield, pyOr, truthy, hf,
        defaultMatchRec]
    | cons x xs =>
      simp [transform_match, pyGetD, pyGet, hs, hh, hv, hd, hfield, pyOr, truthy, hf,
        defaultMatchRec, h]
  · intro rl ml hn hg hm h1 h2 h3 h4 h5
    have hmm := transform_match_all_missing ml h1 h2 h3 h4 h5
    simp [transform_matches, transform_jornada, pyGetD, hn, hg, hm, asList, hmm,
      List.mapM.loop]

/-- Closed instance of the C7 theorem: the empty match record inside the
empty round record. -/
theorem transform_missing_fields_defaults_w :
    transform_match (.pdict []) = some defaultMatchRec
    ∧ transform_matches (.plist [.pdict [(strv "matches", .plist [.pdict []])]]) =
        some (.plist [.pdict [(strv "n", strv ""), (strv "g", .pint 0),
                              (strv "m", .plist [defaultMatchRec])]]) :=
  ⟨transform_missing_fields_defaults.1 [] rfl rfl rfl rfl rfl,
   transform_missing_fields_defaults.2.2.2 [(strv "matches", .plist [.pdict []])] []
     rfl rfl rfl rfl rfl rfl rfl rfl⟩

/-- C9: the group-letter derivation never fails — in particular the negative
string index is unreachable because it is guarded by the truthiness test on
the trimmed name — and an absent, empty, or all-whitespace display name
yields the letter A. -/
theorem gletter_guarded_default :
    (∀ s : List Char, (gletterOf s).isSome = true)
    ∧ (∀ s : List Char, stripL s = [] → gletterOf s = some ['A']) := by
  constructor
  · intro s
    unfold gletterOf
    by_cases h : (stripL s).isEmpty
    · simp [h]
    · have hne : stripL s ≠ [] := by simpa [List.isEmpty_iff] using h
      obtain ⟨c, hc⟩ := Option.isSome_iff_exists.mp (List.getLast?_isSome.mpr hne)
      simp [h, hc]
  · intro s h
    unfold gletterOf
    simp [h]

/-- Closed instance of the C9 theorem on an all-whitespace group name. -/
theorem gletter_guarded_default_w : gletterOf "   ".data = some ['A'] :=
  gletter_guarded_default.2 "   ".data rfl

/-- C5 counterexample: build_pt can store a group letter outside A, B, C, D.
With no groups structure, the fallback path reuses whatever letter the
previously persisted mapping carries — here Z — so “every group value stored
in the grouped mapping lies in the set A, B, C, D” fails as a universal
statement about the resolver output. -/
theorem grouped_mapping_letter_outside_range :
    build_pt
        (.pdict [(strv "teams",
          .plist [.pdict [(strv "id", .pint 1), (strv "name", strv "T")]])])
        (.pdict [(strv "1", .pdict [(strv "n", strv "T"), (strv "g", strv "Z")])])
      = some (.pdict [(.pint 1, .pdict [(strv "n", strv "T"), (strv "g", strv "Z")])])
    ∧ strv "Z" ≠ strv "A" ∧ strv "Z" ≠ strv "B" ∧ strv "Z" ≠ strv "C"
    ∧ strv "Z" ≠ strv "D" := by
  refine ⟨rfl, ?_, ?_, ?_, ?_⟩ <;> simp [strv]

/-- Any letter the derivation returns is one of the four valid ones. -/
theorem gletterOf_range (gn l : List Char) (h : gletterOf gn = some l) :
    l = "A".data ∨ l = "B".data ∨ l = "C".data ∨ l = "D".data := by
  unfold gletterOf at h
  by_cases he : (stripL gn).isEmpty
  · simp [he] at h
    exact Or.inl h.symm
  · simp [he] at h
    cases hc : (stripL gn).getLast? with
    | none => rw [hc] at h; simp at h
    | some c =>
      rw [hc] at h
      simp at h
      split at h
      next hcond =>
        subst h
        rcases hcond with ((h1 | h1) | h1) | h1
        · exact Or.inl (by rw [h1])
        · exact Or.inr (Or.inl (by rw [h1]))
        · exact Or.inr (Or.inr (Or.inl (by rw [h1])))
        · exact Or.inr (Or.inr (Or.inr (by rw [h1])))
      next hcond => exact Or.inl h.symm

/-- Well-formed entry of the grouped mapping as the groups branch builds it:
a two-field record whose group letter is one of the four valid ones. -/
def goodPTEntry (v : PyVal) : Prop :=
  ∃ nm l, v = .pdict [(strv "n", nm), (strv "g", .pstr l)]
    ∧ (l = "A".data ∨ l = "B".data ∨ l = "C".data ∨ l = "D".data)

/-- Assignment preserves a property of all stored values when the new value
has it. -/
theorem dset_values_prop (Q : PyVal → Prop) (d : List (PyVal × PyVal)) (k v : PyVal)
    (hd : ∀ kv ∈ d, Q kv.2) (hv : Q v) : ∀ kv ∈ dset d k v, Q kv.2 := by
  intro kv hkv
  unfold dset at hkv
  split at hkv
  · obtain ⟨p, hp, he⟩ := List.mem_map.mp hkv
    by_cases hk : keyEq p.1 k
    · rw [if_pos hk] at he
      rw [← he]
      exact hv
    · rw [if_neg hk] at he
      rw [← he]
      exact hd p hp
  · rcases List.mem_append.mp hkv with h | h
    · exact hd kv h
    · simp at h
      rw [h]
      exact hv

/-- Team loop of the groups branch: starting from a mapping of well-formed
entries and inserting entries with a valid letter keeps every entry
well-formed. -/
theorem ptTeams_fold_good (gl : List Char)
    (hgl : gl = "A".data ∨ gl = "B".data ∨ gl = "C".data ∨ gl = "D".data) :
    ∀ (ts : List PyVal) (pt res : List (PyVal × PyVal)),
      (∀ kv ∈ pt, goodPTEntry kv.2) →
      ts.foldlM (fun pt team => do
          let tid ← pyIndex team (strv "id")
          let nm ← pyIndex team (strv "name")
          pure (dset pt tid (.pdict [(strv "n", nm), (strv "g", .pstr gl)]))) pt
        = some res →
      ∀ kv ∈ res, goodPTEntry kv.2 := by
  intro ts
  induction ts with
  | nil =>
    intro pt res hpt hf
    simp only [List.foldlM_nil, pure, Option.some.injEq] at hf
    subst hf
    exact hpt
  | cons t ts ih =>
    intro pt res hpt hf
    rw [List.foldlM_cons] at hf
    simp only [Option.bind_eq_bind, Option.bind_eq_some, Option.some.injEq] at hf
    obtain ⟨pt1, ⟨tid, htid, nm, hnm, hset⟩, hrest⟩ := hf
    refine ih pt1 res ?_ hrest
    rw [← Option.some.inj hset]
    exact dset_values_prop _ pt tid _ hpt ⟨nm, gl, rfl, hgl⟩

/-- Group loop of the groups branch: every entry of the accumulated mapping
is well-formed. -/
theorem ptGroups_fold_good :
    ∀ (gs : List PyVal) (pt res : List (PyVal × PyVal)),
      (∀ kv ∈ pt, goodPTEntry kv.2) →
      gs.foldlM (fun pt group => do
          let gname ← pyGetD group (strv "name") (strv "")
          let gn ← asStr gname
          let gl ← gletterOf gn
          let ts ← asList (← pyGetD group (strv "teams") (.plist []))
          ts.foldlM (fun pt team => do
              let tid ← pyIndex team (strv "id")
              let nm ← pyIndex team (strv "name")
              pure (dset pt tid (.pdict [(strv "n", nm), (strv "g", .pstr gl)]))) pt) pt
        = some res →
      ∀ kv ∈ res, goodPTEntry kv.2 := by
  intro gs
  induction gs with
  | nil =>
    intro pt res hpt hf
    simp only [List.foldlM_nil, pure, Option.some.injEq] at hf
    subst hf
    exact hpt
  | cons g gs ih =>
    intro pt res hpt hf
    rw [List.foldlM_cons] at hf
    simp only [Option.bind_eq_bind, Option.bind_eq_some] at hf
    obtain ⟨pt1, ⟨gname, hgname, gn, hgn, gl, hgl, tv, htv, ts, hts, hinner⟩, hrest⟩ := hf
    exact ih pt1 res (ptTeams_fold_good gl (gletterOf_range gn gl hgl) ts pt pt1 hpt hinner)
      hrest

/-- Every entry the groups branch of build_pt produces is well-formed, with a
letter in the four-letter set. -/
theorem ptFromGroups_good (groups : PyVal) (res : List (PyVal × PyVal))
    (h : ptFromGroups groups = some res) : ∀ kv ∈ res, goodPTEntry kv.2 := by
  unfold ptFromGroups at h
  simp only [Option.bind_eq_bind, Option.bind_eq_some] at h
  obtain ⟨gs, hgs, hfold⟩ := h
  exact ptGroups_fold_good gs [] res (by simp) hfold

/-- C5 amended: the group letter derived from a display name is the last
character of the trimmed name upper-cased, collapsed to A outside A to D —
the four spec examples evaluate as documented, every derived letter lies in
the four-letter set, and every group value stored by the groups-structure
branch of the resolver lies in that set. (The original universal claim about
the whole grouped mapping fails on the fallback path, which reuses persisted
letters verbatim.) -/
theorem gletter_derivation_spec :
    gletterOf "Grupo A".data = some "A".data
    ∧ gletterOf "B".data = some "B".data
    ∧ gletterOf "grupo c".data = some "C".data
    ∧ gletterOf "Z".data = some "A".data
    ∧ (∀ gn l, gletterOf gn = some l →
        l = "A".data ∨ l = "B".data ∨ l = "C".data ∨ l = "D".data)
    ∧ (∀ groups res, ptFromGroups groups = some res → ∀ kv ∈ res, goodPTEntry kv.2) :=
  ⟨rfl, rfl, rfl, rfl, gletterOf_range, ptFromGroups_good⟩

/-- Closed instance of the C5 amended theorem: a concrete one-group structure
produces a well-formed entry, and a concrete derived letter is in range. -/
theorem gletter_derivation_spec_w :
    ("B".data = "A".data ∨ "B".data = "B".data ∨ "B".data = "C".data ∨ "B".data = "D".data)
    ∧ goodPTEntry (.pdict [(strv "n", strv "X"), (strv "g", strv "B")]) :=
  ⟨gletter_derivation_spec.2.2.2.2.1 "Grupo B".data "B".data rfl,
   gletter_derivation_spec.2.2.2.2.2
     (.plist [.pdict [(strv "name", strv "Grupo B"),
        (strv "teams", .plist [.pdict [(strv "id", .pint 7), (strv "name", strv "X")]])]])
     [(.pint 7, .pdict [(strv "n", strv "X"), (strv "g", strv "B")])]
     rfl
     (.pint 7, .pdict [(strv "n", strv "X"), (strv "g", strv "B")]) (by simp)⟩


/-- Team record with exactly the id and name keys, as the fallback path of
the grouped resolver reads them. -/
def mkTeam (p : Int × List Char) : PyVal :=
  .pdict [(strv "id", .pint p.1), (strv "name", .pstr p.2)]

/-- Group resolution of the fallback loop as a total function of a dict-shaped
previous mapping: an empty mapping gives A; otherwise the id is looked up
directly and then by its str form, and a truthy dict entry contributes its g
value (defaulting to A) while anything else gives A. -/
def fbgVal (e : List (PyVal × PyVal)) (k : PyVal) : PyVal :=
  if e.isEmpty then strv "A"
  else
    let e1 := (dget e k).getD .pnone
    let entry := if truthy e1 then e1 else (dget e (pyStrV k)).getD .pnone
    if truthy entry then
      match entry with
      | .pdict d => (dget d (strv "g")).getD (strv "A")
      | _ => strv "A"
    else strv "A"

/-- On a dict-shaped previous mapping the per-team resolution never fails and
computes fbgVal. -/
theorem fallbackGroup_pdict (e : List (PyVal × PyVal)) (k : PyVal) :
    fallbackGroup (.pdict e) k = some (fbgVal e k) := by
  unfold fallbackGroup fbgVal
  by_cases he : e.isEmpty
  · simp [truthy, he]
  · have he2 : e.isEmpty = false := by simpa using he
    have ht : truthy (.pdict e) = true := by simp [truthy, he2]
    rw [ht, he2]
    simp only [if_true, Bool.false_eq_true, if_false, pyGet, pyGetD]
    generalize (dget e k).getD PyVal.pnone = a
    generalize (dget e (pyStrV k)).getD PyVal.pnone = b
    simp only [Option.bind_eq_bind, Option.some_bind]
    by_cases h1 : truthy a
    · simp only [h1, if_true, Option.some_bind]
      cases a <;> simp_all [truthy]
    · have h1f : truthy a = false := by simpa using h1
      simp only [h1f, Bool.false_eq_true, if_false, Option.some_bind]
      cases b <;> (simp [truthy]; try split <;> rfl)

/-- Assigning a fresh key appends the pair. -/
theorem dset_append_of_fresh (d : List (PyVal × PyVal)) (k v : PyVal)
    (h : ∀ p ∈ d, keyEq p.1 k = false) : dset d k v = d ++ [(k, v)] := by
  unfold dset
  have hc : (d.any fun p => keyEq p.1 k) = false := by
    rw [List.any_eq_false]
    intro p hp
    simp [h p hp]
  rw [hc]
  simp

/-- One fallback step on a well-formed team: resolve and append or overwrite. -/
theorem ptFallbackStep_mkTeam (e acc : List (PyVal × PyVal)) (p : Int × List Char) :
    ptFallbackStep (.pdict e) acc (mkTeam p) =
      some (dset acc (.pint p.1)
        (.pdict [(strv "n", .pstr p.2), (strv "g", fbgVal e (.pint p.1))])) := by
  have h1 : pyIndex (mkTeam p) (strv "id") = some (.pint p.1) := rfl
  have h2 : pyIndex (mkTeam p) (strv "name") = some (.pstr p.2) := rfl
  unfold ptFallbackStep
  rw [h1, h2]
  simp [fallbackGroup_pdict]

/-- Fallback loop over well-formed teams with pairwise distinct ids: starting
from an accumulator free of those ids, it appends one entry per team,
resolving each group through fbgVal. -/
theorem ptFallback_fold_map (e : List (PyVal × PyVal)) :
    ∀ (teams : List (Int × List Char)) (acc : List (PyVal × PyVal)),
      (teams.map Prod.fst).Nodup →
      (∀ p ∈ teams, ∀ q ∈ acc, keyEq q.1 (.pint p.1) = false) →
      (teams.map mkTeam).foldlM (ptFallbackStep (.pdict e)) acc
      = some (acc ++ teams.map (fun p =>
          (.pint p.1, .pdict [(strv "n", .pstr p.2),
                              (strv "g", fbgVal e (.pint p.1))]))) := by
  intro teams
  induction teams with
  | nil =>
    intro acc _ _
    simp [List.foldlM_nil]
  | cons p ps ih =>
    intro acc hnd hfresh
    simp only [List.map_cons, List.foldlM_cons]
    rw [ptFallbackStep_mkTeam e acc p,
      dset_append_of_fresh acc (.pint p.1) _ (hfresh p (List.mem_cons_self p ps))]
    have hnd2 : (ps.map Prod.fst).Nodup := by
      simpa using hnd.of_cons
    have hfresh2 : ∀ q ∈ ps, ∀ r ∈ acc ++ [(.pint p.1,
        .pdict [(strv "n", .pstr p.2), (strv "g", fbgVal e (.pint p.1))])],
        keyEq r.1 (.pint q.1) = false := by
      intro q hq r hr
      rcases List.mem_append.mp hr with hr | hr
      · exact hfresh q (List.mem_cons_of_mem p hq) r hr
      · simp only [List.mem_singleton] at hr
        subst hr
        have hne : p.1 ≠ q.1 := by
          simp only [List.map_cons, List.nodup_cons] at hnd
          intro hemm
          exact hnd.1 (hemm ▸ List.mem_map_of_mem Prod.fst hq)
        simp [keyEq, hne]
    simp only [Option.bind_eq_bind, Option.some_bind]
    have hres := ih (acc ++ [(.pint p.1,
      .pdict [(strv "n", .pstr p.2), (strv "g", fbgVal e (.pint p.1))])]) hnd2 hfresh2
    simpa [List.append_assoc] using hres

/-- C4: with no truthy groups structure, the grouped resolver falls back to
the flat teams list and includes every team, keyed by its id, with its name
and a group resolved by fbgVal — the lookup that tries the integer id and
then its string form in the previous mapping and reuses the g letter of a
truthy dict entry, defaulting to A — and with an empty previous mapping the
resolved group is always A. -/
theorem build_pt_fallback_spec :
    (∀ (tdl e : List (PyVal × PyVal)) (teams : List (Int × List Char)),
      (∀ gv, groupsOf (.pdict tdl) = some gv → truthy gv = false) →
      dget tdl (strv "teams") = some (.plist (teams.map mkTeam)) →
      (teams.map Prod.fst).Nodup →
      build_pt (.pdict tdl) (.pdict e) =
        some (.pdict (teams.map (fun p =>
          (.pint p.1, .pdict [(strv "n", .pstr p.2),
                              (strv "g", fbgVal e (.pint p.1))])))))
    ∧ (∀ k, fbgVal [] k = strv "A") := by
  constructor
  · intro tdl e teams hg hteams hnd
    have hgs : groupsOf (.pdict tdl) =
        some (pyOr ((dget tdl (strv "groups")).getD .pnone)
          (pyOr ((dget tdl (strv "roundGroups")).getD .pnone)
            (pyOr ((dget tdl (strv "groupsRounds")).getD .pnone) (.plist [])))) := rfl
    have hgf := hg _ hgs
    unfold build_pt
    rw [hgs]
    simp only [Option.bind_eq_bind, Option.some_bind, hgf, Bool.false_eq_true, if_false,
      List.isEmpty_nil, if_true]
    unfold ptFallback
    simp only [pyGetD, hteams, Option.getD_some, asList, Option.bind_eq_bind,
      Option.some_bind]
    rw [ptFallback_fold_map e teams [] hnd (by simp)]
    simp
  · intro k
    rfl

/-- Closed instance of the C4 theorem at the spec example: previous mapping
with integer key 5 and letter B, one fresh team with id 5, no groups
structure — the mapping returns with the letter preserved — and the empty
previous mapping resolves to A. -/
theorem build_pt_fallback_spec_w :
    build_pt (.pdict [(strv "teams", .plist [mkTeam (5, "X".data)])])
        (.pdict [(.pint 5, .pdict [(strv "n", strv "X"), (strv "g", strv "B")])])
      = some (.pdict [(.pint 5, .pdict [(strv "n", strv "X"), (strv "g", strv "B")])])
    ∧ fbgVal [] (.pint 9) = strv "A" := by
  constructor
  · have h := build_pt_fallback_spec.1 [(strv "teams", .plist [mkTeam (5, "X".data)])]
      [(.pint 5, .pdict [(strv "n", strv "X"), (strv "g", strv "B")])] [(5, "X".data)]
      (fun gv hgv => by injection hgv with h2; rw [← h2]; rfl) rfl (by simp)
    exact h
  · exact build_pt_fallback_spec.2 (.pint 9)

/-- First example round of the end-to-end scenario: one played match with a
valid timestamp. -/
def exRound1 : PyVal :=
  .pdict [(strv "n", strv "Jornada 1"), (strv "g", .pint 1),
    (strv "m", .plist [.pdict [(strv "h", .pint 1), (strv "v", .pint 2),
      (strv "d", strv "2024-03-10T10:00"), (strv "s", .pint 1), (strv "f", strv "")]])]

/-- Second example round: one pending match with a venue and no timestamp. -/
def exRound2 : PyVal :=
  .pdict [(strv "n", strv "Jornada 2"), (strv "g", .pint 1),
    (strv "m", .plist [.pdict [(strv "h", .pint 2), (strv "v", .pint 1),
      (strv "d", strv ""), (strv "s", .pint 5), (strv "f", strv "Campo Norte")]])]

/-- The example rounds list. -/
def exRounds : PyVal := .plist [exRound1, exRound2]

/-- The example flat team mapping with integer keys. -/
def exMT : PyVal := .pdict [(.pint 1, strv "Team A"), (.pint 2, strv "Team B")]

/-- The example grouped team mapping with an integer key. -/
def exPT : PyVal :=
  .pdict [(.pint 3, .pdict [(strv "n", strv "Team C"), (strv "g", strv "B")])]

/-- What parsing the serialized flat mapping actually returns: string keys. -/
def exMTLoaded : PyVal := .pdict [(strv "1", strv "Team A"), (strv "2", strv "Team B")]

/-- What parsing the serialized grouped mapping actually returns: string keys. -/
def exPTLoaded : PyVal :=
  .pdict [(strv "3", .pdict [(strv "n", strv "Team C"), (strv "g", strv "B")])]

/-- C8 counterexample: the serialized flat team mapping of the end-to-end
example parses back with string keys, not integer keys, so the parsed value
differs from the original in-memory structure — the exact round-trip law
fails on integer-keyed mappings (which is why the source also looks
previous ids up by their string form). -/
theorem js_const_roundtrip_cx :
    js_const 4 "MT".data exMT = some "const MT=\x7b\"1\":\"Team A\",\"2\":\"Team B\"\x7d;".data
    ∧ loads "\x7b\"1\":\"Team A\",\"2\":\"Team B\"\x7d".data = some exMTLoaded
    ∧ exMTLoaded ≠ exMT := by
  refine ⟨rfl, rfl, ?_⟩
  simp [exMTLoaded, exMT, strv]

set_option maxRecDepth 100000 in
/-- C8 amended: every constant declaration has the form const NAME equals
compact JSON followed by a semicolon, non-ASCII characters stay unescaped,
and parsing the serialized JSON of the end-to-end example returns the
original structures with integer dict keys replaced by their decimal string
forms (the rounds, which have only string keys, parse back exactly). -/
theorem js_const_form_and_roundtrip :
    (∀ (fuel : Nat) (name : List Char) (v : PyVal) (j : List Char),
        dumpsF fuel v = some j →
        js_const fuel name v = some ("const ".data ++ name ++ '=' :: j ++ [';']))
    ∧ (dumpsF 9 exRounds).bind loads = some exRounds
    ∧ (dumpsF 9 exMT).bind loads = some exMTLoaded
    ∧ (dumpsF 9 exPT).bind loads = some exPTLoaded
    ∧ dumpsF 9 (strv "Minibenjamín") = some "\"Minibenjamín\"".data := by
  refine ⟨?_, rfl, rfl, rfl, rfl⟩
  intro fuel name v j h
  unfold js_const
  rw [h]
  rfl

/-- Closed instance of the C8 amended theorem: the declaration form at a
concrete value. -/
theorem js_const_form_and_roundtrip_w :
    js_const 1 "MT".data .pnone = some "const MT=null;".data :=
  js_const_form_and_roundtrip.1 1 "MT".data .pnone "null".data rfl
